import Mathlib

/-!
Shallow embedding of the `oai` package of the goharvest repository
(`src/oai/oai.go`): an OAI-PMH harvesting client.  Pure data shapes become
Lean structures; the network interaction of `Request.Perform` is
parametrised by an explicit transport outcome; the harvesting loop
`Request.Harvest` is driven by a *script*, the list of decoded responses
that the successive network calls produce, and returns the trace of calls
(the `Request` value as issued for each call, paired with the response
received).  The batch callback of the Go code is invoked exactly once per
trace entry, in trace order, with the entry's response, before the driver
checks for continuation; so the list of callback invocations is the trace's
response column.  Channel sends of the fan-out strategy become an explicit
event trace.
-/

namespace Oai

/-- The `Header` struct of oai.go: remote-assigned identity of one record. -/
structure Header where
  Status : String
  Identifier : String
  DateStamp : String
  SetSpec : List String
deriving DecidableEq

/-- The `Metadata` struct of oai.go: opaque inner XML, kept as raw bytes. -/
structure Metadata where
  Body : List Nat
deriving DecidableEq

/-- The `About` struct of oai.go: opaque inner XML, kept as raw bytes. -/
structure About where
  Body : List Nat
deriving DecidableEq

/-- The `Record` struct of oai.go: a header plus opaque metadata/about payloads. -/
structure Record where
  Header : Header
  Metadata : Metadata
  About : About
deriving DecidableEq

/-- The `ListIdentifiers` struct of oai.go: page of headers plus token. -/
structure ListIdentifiers where
  Headers : List Header
  ResumptionToken : String
deriving DecidableEq

/-- The `ListRecords` struct of oai.go: page of records plus token. -/
structure ListRecords where
  Records : List Record
  ResumptionToken : String
deriving DecidableEq

/-- The `GetRecord` struct of oai.go. -/
structure GetRecord where
  Record : Record
deriving DecidableEq

/-- The `RequestNode` struct of oai.go: the echoed request element. -/
structure RequestNode where
  Verb : String
  Set : String
  MetadataPrefix : String
deriving DecidableEq

/-- The `OAIError` struct of oai.go: protocol-level error envelope. -/
structure OAIError where
  Code : String
  Message : String
deriving DecidableEq

/-- The `MetadataFormat` struct of oai.go. -/
structure MetadataFormat where
  MetadataPrefix : String
  Schema : String
  MetadataNamespace : String
deriving DecidableEq

/-- The `ListMetadataFormats` struct of oai.go. -/
structure ListMetadataFormats where
  MetadataFormat : List MetadataFormat
deriving DecidableEq

/-- The `Description` struct of oai.go: opaque inner XML. -/
structure Description where
  Body : List Nat
deriving DecidableEq

/-- The `Set` struct of oai.go. -/
structure Set where
  SetSpec : String
  SetName : String
  SetDescription : Description
deriving DecidableEq

/-- The `ListSets` struct of oai.go. -/
structure ListSets where
  Set : List Set
deriving DecidableEq

/-- The `Identify` struct of oai.go. -/
structure Identify where
  RepositoryName : String
  BaseURL : String
  ProtocolVersion : String
  AdminEmail : List String
  EarliestDatestamp : String
  DeletedRecord : String
  Granularity : String
  Description : List Description
deriving DecidableEq

/-- The `Response` struct of oai.go: the decoded shape of one protocol call. -/
structure Response where
  ResponseDate : String
  Request : RequestNode
  Error : OAIError
  Identify : Identify
  ListMetadataFormats : ListMetadataFormats
  ListSets : ListSets
  GetRecord : GetRecord
  ListIdentifiers : ListIdentifiers
  ListRecords : ListRecords
deriving DecidableEq

/-- The `Request` struct of oai.go: request URL and query string descriptor. -/
structure Request where
  BaseUrl : String
  Set : String
  MetadataPrefix : String
  Verb : String
  Identifier : String
  ResumptionToken : String
  From : String
  Until : String
deriving DecidableEq

/-- The `add` closure of `Request.String` in oai.go: append `name=value`
to the query list when the value is non-empty. -/
def addParam (qs : List String) (name value : String) : List String :=
  if value = "" then qs else qs ++ [name ++ "=" ++ value]

/-- The query list `qs` built by `Request.String` in oai.go: the seven
`add` calls, in source order. -/
def Request.qs (req : Request) : List String :=
  let qs : List String := []
  let qs := addParam qs "verb" req.Verb
  let qs := addParam qs "set" req.Set
  let qs := addParam qs "metadataPrefix" req.MetadataPrefix
  let qs := addParam qs "resumptionToken" req.ResumptionToken
  let qs := addParam qs "identifier" req.Identifier
  let qs := addParam qs "from" req.From
  let qs := addParam qs "until" req.Until
  qs

/-- Function `Request.String` of oai.go: base URL, `?`, and the `&`-joined query
list (Go `strings.Join` is `String.intercalate`). -/
def Request.String (req : Request) : String :=
  String.intercalate "" [req.BaseUrl, "?", String.intercalate "&" req.qs]

/-- Outcome of the network interaction inside `Request.Perform`: the
`http.Get` call may fail, reading the body may fail, or a body arrives
with some HTTP status and either fails or succeeds XML decoding (a
successful decode may still leave the response pointer nil). -/
inductive TransportOutcome where
  | getError (msg : String)
  | readError (status : Nat) (msg : String)
  | body (status : Nat) (decodeError : Option String) (decoded : Option Response)
deriving DecidableEq

/-- Result of `Request.Perform`: a Go `panic` or a returned response
pointer (possibly nil). -/
inductive PerformResult where
  | panicked (msg : String)
  | returned (resp : Option Response)
deriving DecidableEq

/-- Function `Request.Perform` of oai.go, with the network interaction made
explicit as a `TransportOutcome` parameter: `http.Get` errors,
`ioutil.ReadAll` errors and `xml.Unmarshal` errors each `panic`;
otherwise the decoded response is returned.  The HTTP status code is
never inspected by the source, so it is ignored here as well. -/
def Request.Perform (req : Request) (outcome : TransportOutcome) : PerformResult :=
  match outcome with
  | .getError msg => .panicked msg
  | .readError _ msg => .panicked msg
  | .body _ (some msg) _ => .panicked msg
  | .body _ none resp => .returned resp

/-- Function `Response.ResumptionToken` of oai.go.  The Go receiver is a pointer
that may be nil, hence the `Option` argument.  The ListIdentifiers token
field is consulted first, then the ListRecords token field; the boolean
is true exactly when the resulting token is non-empty. -/
def Response.ResumptionToken (resp : Option Response) : Bool × String :=
  match resp with
  | none => (false, "")
  | some r =>
    let resumptionToken := r.ListIdentifiers.ResumptionToken
    let resumptionToken :=
      if resumptionToken = "" then r.ListRecords.ResumptionToken else resumptionToken
    let hasResumptionToken := if resumptionToken ≠ "" then true else false
    (hasResumptionToken, resumptionToken)

/-- Function `Request.Harvest` of oai.go, driven by the script of decoded responses
the successive `Perform` calls produce.  Returns the trace of calls: the
`Request` value as issued for each call, paired with the response
received.  When the response carries a resumption token the `Set`,
`MetadataPrefix` and `From` fields are cleared, the token is installed,
and harvesting recurses on the rest of the script. -/
def Request.Harvest (req : Request) (script : List Response) :
    List (Request × Response) :=
  match script with
  | [] => []
  | resp :: rest =>
    let hr := Response.ResumptionToken (some resp)
    if hr.1 = true then
      let req' := { req with Set := "", MetadataPrefix := "", From := "",
                             ResumptionToken := hr.2 }
      (req, resp) :: Request.Harvest req' rest
    else
      [(req, resp)]

/-- Function `Request.HarvestIdentifiers` of oai.go: fixes the verb and, for each
page, invokes the per-header callback once per header in wire order.  The
result is the list of callback invocations, in invocation order. -/
def Request.HarvestIdentifiers (req : Request) (script : List Response) :
    List Header :=
  let req := { req with Verb := "ListIdentifiers" }
  (Request.Harvest req script).flatMap fun c => c.2.ListIdentifiers.Headers

/-- Function `Request.HarvestRecords` of oai.go: fixes the verb and, for each page,
invokes the per-record callback once per record in wire order.  The result
is the list of callback invocations, in invocation order. -/
def Request.HarvestRecords (req : Request) (script : List Response) :
    List Record :=
  let req := { req with Verb := "ListRecords" }
  (Request.Harvest req script).flatMap fun c => c.2.ListRecords.Records

/-- One observable channel operation of the fan-out strategy: a send of a
header pointer (`none` is the nil sentinel) to the channel at an index, or
a close of the channel at an index.  The source never closes a channel, so
the embedding never emits a `close` event. -/
inductive ChanEvent where
  | send (chanIdx : Nat) (item : Option Header)
  | close (chanIdx : Nat)
deriving DecidableEq

/-- The round-robin send loop inside the `ChannelHarvestIdentifiers`
callback of oai.go: `i` starts at the given value, each header is sent to
channel `i`, then `i` is incremented and wrapped to 0 on reaching the
channel count. -/
def distributeLoop (n : Nat) (i : Nat) (headers : List Header) :
    List ChanEvent :=
  match headers with
  | [] => []
  | h :: rest =>
    let ev := ChanEvent.send i (some h)
    let i := i + 1
    let i := if i = n then 0 else i
    ev :: distributeLoop n i rest

/-- The per-page callback of `ChannelHarvestIdentifiers` in oai.go: the
page's headers are distributed round-robin starting at index 0, and when
the response carries no resumption token a nil sentinel is sent to every
channel. -/
def channelPageEvents (n : Nat) (resp : Response) : List ChanEvent :=
  let sends := distributeLoop n 0 resp.ListIdentifiers.Headers
  let hasResumptionToken := (Response.ResumptionToken (some resp)).1
  sends ++
    (if !hasResumptionToken then
      (List.range n).map (fun j => ChanEvent.send j none)
    else [])

/-- Function `Request.ChannelHarvestIdentifiers` of oai.go over `n` channels:
fixes the verb and harvests, producing the concatenated channel-event
trace of the per-page callbacks, in page order. -/
def Request.ChannelHarvestIdentifiers (req : Request) (n : Nat)
    (script : List Response) : List ChanEvent :=
  let req := { req with Verb := "ListIdentifiers" }
  (Request.Harvest req script).flatMap fun c => channelPageEvents n c.2

/-- Observer: the channel indices of the real (non-sentinel) sends of an
event trace, in trace order. -/
def realSendTargets (evs : List ChanEvent) : List Nat :=
  evs.filterMap fun e =>
    match e with
    | ChanEvent.send j (some _) => some j
    | _ => none

/-- The serialized target as worded by the spec: the base address
concatenated with `?` and a query string assembled from exactly the
non-empty parameters among verb, set, metadataPrefix, resumptionToken,
identifier, from, until, in that fixed order, each as `name=value` with
the raw value, joined by `&`. -/
def specTarget (req : Request) : String :=
  let params := [("verb", req.Verb), ("set", req.Set),
    ("metadataPrefix", req.MetadataPrefix),
    ("resumptionToken", req.ResumptionToken),
    ("identifier", req.Identifier), ("from", req.From), ("until", req.Until)]
  req.BaseUrl ++ "?" ++
    String.intercalate "&"
      ((params.filter (fun p => p.2 ≠ "")).map (fun p => p.1 ++ "=" ++ p.2))

/-- The mutated request `Request.Harvest` builds before re-issuing a call:
the `Set`, `MetadataPrefix` and `From` filter parameters are cleared and
the detected resumption token of the response is installed. -/
def continuationRequest (c : Request × Response) : Request :=
  { c.1 with Set := "", MetadataPrefix := "", From := "",
             ResumptionToken := (Response.ResumptionToken (some c.2)).2 }

/-- The contribution of one parameter to the query list: nothing when the
value is empty, otherwise the single pair `name=value`. -/
def condParam (name value : String) : List String :=
  if value = "" then [] else [name ++ "=" ++ value]

/-- An all-empty response, the base of the concrete test responses. -/
def blankResponse : Response :=
  { ResponseDate := "", Request := ⟨"", "", ""⟩, Error := ⟨"", ""⟩,
    Identify := ⟨"", "", "", [], "", "", "", []⟩,
    ListMetadataFormats := ⟨[]⟩, ListSets := ⟨[]⟩,
    GetRecord := ⟨⟨⟨"", "", "", []⟩, ⟨[]⟩, ⟨[]⟩⟩⟩,
    ListIdentifiers := ⟨[], ""⟩, ListRecords := ⟨[], ""⟩ }

/-- A header with the given identifier and otherwise empty fields. -/
def sampleHeader (ident : String) : Header := ⟨"", ident, "", []⟩

/-- A record with the given header identifier and empty payloads. -/
def sampleRecord (ident : String) : Record := ⟨sampleHeader ident, ⟨[]⟩, ⟨[]⟩⟩

/-- A page response carrying the given headers, records and resumption
token (the token is stored on both list shapes, as a remote would). -/
def samplePage (hs : List Header) (rs : List Record) (tok : String) :
    Response :=
  { blankResponse with ListIdentifiers := ⟨hs, tok⟩,
                       ListRecords := ⟨rs, tok⟩ }

/-- A base request used by the concrete witnesses. -/
def sampleRequest : Request :=
  { BaseUrl := "http://example.org/oai", Set := "A", MetadataPrefix := "dc",
    Verb := "ListIdentifiers", Identifier := "", ResumptionToken := "",
    From := "2020-01-01", Until := "2021-01-01" }

/-- First concrete page: two headers and two records, resumption token
`t1`. -/
def samplePage1 : Response :=
  samplePage [sampleHeader "a", sampleHeader "b"]
    [sampleRecord "a", sampleRecord "b"] "t1"

/-- Second concrete page: one header and one record, no token. -/
def samplePage2 : Response :=
  samplePage [sampleHeader "c"] [sampleRecord "c"] ""

/-- A two-page script: the first page carries resumption token `t1`, the
final page carries none. -/
def sampleScript : List Response := [samplePage1, samplePage2]

/-- The second call of the harvest of `sampleScript`: the mutated request
paired with the second page. -/
def sampleContinuation : Request × Response :=
  ({ sampleRequest with
      Set := "", MetadataPrefix := "", From := "",
      ResumptionToken := "t1" }, samplePage2)

/-- A fan-out script: 7 headers split 4 + 3 over two pages, the first page
with a continuation token, the second final. -/
def fanScript : List Response :=
  [samplePage [sampleHeader "h0", sampleHeader "h1", sampleHeader "h2",
      sampleHeader "h3"] [] "next",
   samplePage [sampleHeader "h4", sampleHeader "h5", sampleHeader "h6"] [] ""]

/-- A response whose error element is populated and whose list payloads
are empty. -/
def errorResponse : Response :=
  { blankResponse with Error := ⟨"badArgument", "illegal argument"⟩ }

end Oai

namespace Oai

/-- Unfolding lemma: one step of the harvesting loop on a non-empty
script. -/
theorem Harvest_cons (req : Request) (r : Response) (rest : List Response) :
    Request.Harvest req (r :: rest)
      = if (Response.ResumptionToken (some r)).1 = true then
          (req, r) :: Request.Harvest (continuationRequest (req, r)) rest
        else [(req, r)] := by
  simp only [Request.Harvest, continuationRequest]

/-- Harvest step when the head response carries a token. -/
theorem Harvest_cons_pos (req : Request) (r : Response) (rest : List Response)
    (h : (Response.ResumptionToken (some r)).1 = true) :
    Request.Harvest req (r :: rest)
      = (req, r) :: Request.Harvest (continuationRequest (req, r)) rest := by
  rw [Harvest_cons, if_pos h]

/-- Harvest step when the head response carries no token. -/
theorem Harvest_cons_neg (req : Request) (r : Response) (rest : List Response)
    (h : (Response.ResumptionToken (some r)).1 = false) :
    Request.Harvest req (r :: rest) = [(req, r)] := by
  rw [Harvest_cons]
  simp [h]

/-- The continuation detector reports presence exactly when the token it
returns is non-empty. -/
theorem resumption_has_iff (o : Option Response) :
    (Response.ResumptionToken o).1 = true
      ↔ (Response.ResumptionToken o).2 ≠ "" := by
  cases o with
  | none => simp [Response.ResumptionToken]
  | some r =>
    simp only [Response.ResumptionToken]
    split_ifs <;> simp_all

end Oai

namespace Oai

/-- On a well-formed script (every page but the last carries a token, the
last carries none) the harvesting loop performs one call per page and the
batch callback receives exactly the script's responses, in order. -/
theorem harvest_map_snd (script : List Response) : ∀ (req : Request),
    script ≠ [] →
    (∀ r ∈ script.dropLast, (Response.ResumptionToken (some r)).1 = true) →
    (∀ rl, script.getLast? = some rl →
      (Response.ResumptionToken (some rl)).1 = false) →
    (Request.Harvest req script).map Prod.snd = script := by
  induction script with
  | nil => intro req hne _ _; exact absurd rfl hne
  | cons r rest ih =>
    intro req hne hmid hlast
    cases rest with
    | nil =>
      have hr : (Response.ResumptionToken (some r)).1 = false :=
        hlast r rfl
      rw [Harvest_cons_neg _ _ _ hr]
      simp
    | cons r2 rest2 =>
      have hr : (Response.ResumptionToken (some r)).1 = true := by
        apply hmid
        rw [List.dropLast_cons₂]
        exact List.mem_cons_self _ _
      rw [Harvest_cons_pos _ _ _ hr]
      have hmid2 : ∀ r' ∈ (r2 :: rest2).dropLast,
          (Response.ResumptionToken (some r')).1 = true := by
        intro r' hr'
        apply hmid
        rw [List.dropLast_cons₂]
        exact List.mem_cons_of_mem _ hr'
      have hlast2 : ∀ rl, (r2 :: rest2).getLast? = some rl →
          (Response.ResumptionToken (some rl)).1 = false := by
        intro rl hrl
        exact hlast rl (by rw [List.getLast?_cons_cons]; exact hrl)
      rw [List.map_cons, ih _ (by simp) hmid2 hlast2]

/-- Call `k + 1` of any harvest is issued with the request obtained from
call `k`'s request by clearing the filter parameters and installing the
token of call `k`'s response; moreover call `k`'s response did carry a
token. -/
theorem harvest_step (script : List Response) : ∀ (req : Request) (k : Nat)
    (c c' : Request × Response),
    (Request.Harvest req script)[k]? = some c →
    (Request.Harvest req script)[k + 1]? = some c' →
    c'.1 = continuationRequest c
      ∧ (Response.ResumptionToken (some c.2)).1 = true := by
  induction script with
  | nil => intro req k c c' hc _; simp [Request.Harvest] at hc
  | cons r rest ih =>
    intro req k c c' hc hc'
    by_cases hr : (Response.ResumptionToken (some r)).1 = true
    · rw [Harvest_cons_pos _ _ _ hr] at hc hc'
      cases k with
      | zero =>
        rw [List.getElem?_cons_zero, Option.some_inj] at hc
        rw [List.getElem?_cons_succ] at hc'
        cases rest with
        | nil => simp [Request.Harvest] at hc'
        | cons r2 rest2 =>
          rw [Harvest_cons] at hc'
          subst hc
          split at hc'
          · rw [List.getElem?_cons_zero, Option.some_inj] at hc'
            subst hc'
            exact ⟨rfl, hr⟩
          · rw [List.getElem?_cons_zero, Option.some_inj] at hc'
            subst hc'
            exact ⟨rfl, hr⟩
      | succ k' =>
        rw [List.getElem?_cons_succ] at hc hc'
        exact ih _ k' c c' hc hc'
    · have hr' : (Response.ResumptionToken (some r)).1 = false := by
        cases hb : (Response.ResumptionToken (some r)).1
        · rfl
        · exact absurd hb hr
      rw [Harvest_cons_neg _ _ _ hr'] at hc'
      rw [List.getElem?_cons_succ] at hc'
      simp at hc'

/-- The fields the harvesting loop never mutates are constant across the
trace: every issued request keeps the caller's verb, identifier, until
bound and base URL. -/
theorem harvest_fields (script : List Response) : ∀ (req : Request)
    (c : Request × Response), c ∈ Request.Harvest req script →
    c.1.Verb = req.Verb ∧ c.1.Identifier = req.Identifier
      ∧ c.1.Until = req.Until ∧ c.1.BaseUrl = req.BaseUrl := by
  induction script with
  | nil => intro req c hc; simp [Request.Harvest] at hc
  | cons r rest ih =>
    intro req c hc
    rw [Harvest_cons] at hc
    split at hc
    · rcases List.mem_cons.mp hc with h | h
      · subst h; exact ⟨rfl, rfl, rfl, rfl⟩
      · have h4 := ih _ c h
        simpa [continuationRequest] using h4
    · have h := List.mem_singleton.mp hc
      subst h; exact ⟨rfl, rfl, rfl, rfl⟩

end Oai

namespace Oai

/-- Each `add` call appends the parameter's conditional contribution. -/
theorem addParam_eq (qs : List String) (name value : String) :
    addParam qs name value = qs ++ condParam name value := by
  unfold addParam condParam
  split <;> simp

/-- The query list is the concatenation of the seven parameters'
conditional contributions, in source order. -/
theorem qs_eq (req : Request) :
    Request.qs req
      = condParam "verb" req.Verb ++ condParam "set" req.Set
        ++ condParam "metadataPrefix" req.MetadataPrefix
        ++ condParam "resumptionToken" req.ResumptionToken
        ++ condParam "identifier" req.Identifier
        ++ condParam "from" req.From ++ condParam "until" req.Until := by
  simp [Request.qs, addParam_eq]

/-- Filtering the non-empty parameters and formatting them equals the
concatenation of the conditional contributions. -/
theorem filter_map_eq_condParams (ps : List (String × String)) :
    (ps.filter (fun p => p.2 ≠ "")).map (fun p => p.1 ++ "=" ++ p.2)
      = ps.flatMap (fun p => condParam p.1 p.2) := by
  induction ps with
  | nil => simp
  | cons p ps ih =>
    rw [List.flatMap_cons, ← ih]
    by_cases h : p.2 = ""
    · simp [List.filter_cons, h, condParam]
    · simp [List.filter_cons, h, condParam]

/-- C5: for every request, the serialized target equals the base address
followed by a query string built from exactly the non-empty parameters
among verb, set, metadataPrefix, resumptionToken, identifier, from,
until, emitted in that fixed order, each as raw `name=value`, joined by
`&`; empty parameters are omitted entirely. -/
theorem request_string_matches_spec (req : Request) :
    Request.String req = specTarget req := by
  have h := filter_map_eq_condParams [("verb", req.Verb), ("set", req.Set),
    ("metadataPrefix", req.MetadataPrefix),
    ("resumptionToken", req.ResumptionToken),
    ("identifier", req.Identifier), ("from", req.From), ("until", req.Until)]
  simp only [List.flatMap_cons, List.flatMap_nil, List.append_nil] at h
  simp only [Request.String, specTarget]
  rw [qs_eq, h]
  simp [String.intercalate, String.intercalate.go, List.append_assoc]

/-- C5 witness: the theorem applied at a concrete request. -/
theorem request_string_matches_spec_witness :
    Request.String sampleRequest = specTarget sampleRequest :=
  request_string_matches_spec sampleRequest

end Oai

namespace Oai

/-- C4: the continuation detector returns the ListIdentifiers token field
when it is non-empty and otherwise the ListRecords token field, and
reports presence exactly when the returned token is non-empty; a response
with both fields empty yields no token, and a non-empty identifiers-list
token wins even when the records-list field is also non-empty. -/
theorem resumption_token_contract (r : Response) :
    (Response.ResumptionToken (some r)).2
      = (if r.ListIdentifiers.ResumptionToken = ""
         then r.ListRecords.ResumptionToken
         else r.ListIdentifiers.ResumptionToken)
    ∧ ((Response.ResumptionToken (some r)).1 = true
        ↔ (Response.ResumptionToken (some r)).2 ≠ "")
    ∧ (r.ListIdentifiers.ResumptionToken = "" →
        r.ListRecords.ResumptionToken = "" →
        Response.ResumptionToken (some r) = (false, ""))
    ∧ (r.ListIdentifiers.ResumptionToken ≠ "" →
        (Response.ResumptionToken (some r)).2
          = r.ListIdentifiers.ResumptionToken) := by
  refine ⟨?_, resumption_has_iff (some r), ?_, ?_⟩
  · simp only [Response.ResumptionToken]
  · intro h1 h2
    simp [Response.ResumptionToken, h1, h2]
  · intro h1
    simp [Response.ResumptionToken, h1]

/-- C4 witness: on a response where both token fields are non-empty the
identifiers-list token is the one returned. -/
theorem resumption_token_contract_witness :
    ("liTok" : String) ≠ ""
    ∧ (Response.ResumptionToken
        (some { blankResponse with ListIdentifiers := ⟨[], "liTok"⟩,
                                   ListRecords := ⟨[], "lrTok"⟩ })).2 = "liTok" :=
  ⟨by decide,
   (resumption_token_contract
      { blankResponse with ListIdentifiers := ⟨[], "liTok"⟩,
                           ListRecords := ⟨[], "lrTok"⟩ }).2.2.2 (by decide)⟩

/-- C10: calling the continuation detector on a nil response pointer does
not crash and returns `(false, "")`, the same result as a response with
no continuation token. -/
theorem resumption_token_nil_receiver :
    Response.ResumptionToken none = (false, "") := rfl

/-- C6 counterexample: a non-success HTTP status whose body still decodes
is not a fatal error; `Perform` returns the decoded response normally,
because the source never inspects the status code. -/
theorem perform_nonsuccess_status_not_fatal :
    Request.Perform sampleRequest
        (TransportOutcome.body 500 none (some blankResponse))
      = PerformResult.returned (some blankResponse)
    ∧ ∀ msg, Request.Perform sampleRequest
        (TransportOutcome.body 500 none (some blankResponse))
      ≠ PerformResult.panicked msg := by
  constructor
  · rfl
  · intro msg h
    exact PerformResult.noConfusion h

/-- C6 amended: every transport failure, body-read failure and XML decode
failure is a fatal panic aborting the calling flow, with no partial value
returned and no retry; the HTTP status code is never inspected, so the
result of a delivered body does not depend on the status, and a decodable
body is returned whatever the status was. -/
theorem perform_fatal_error_policy (req : Request) :
    (∀ msg, Request.Perform req (TransportOutcome.getError msg)
      = PerformResult.panicked msg)
    ∧ (∀ status msg, Request.Perform req (TransportOutcome.readError status msg)
      = PerformResult.panicked msg)
    ∧ (∀ status msg resp,
        Request.Perform req (TransportOutcome.body status (some msg) resp)
      = PerformResult.panicked msg)
    ∧ (∀ status status' d resp,
        Request.Perform req (TransportOutcome.body status d resp)
      = Request.Perform req (TransportOutcome.body status' d resp))
    ∧ (∀ status resp, Request.Perform req (TransportOutcome.body status none resp)
      = PerformResult.returned resp) := by
  refine ⟨fun _ => rfl, fun _ _ => rfl, fun _ _ _ => rfl, ?_, fun _ _ => rfl⟩
  intro status status' d resp
  cases d <;> rfl

/-- C7: a well-formed response with a populated error element and empty
list payloads is delivered to the batch callback exactly like a normal
page, the continuation detector finds no token, and the harvest stops
after that single call; the driver never inspects the error field, so the
same holds whatever the error element contains. -/
theorem harvest_error_envelope_graceful (req : Request) (r : Response)
    (rest : List Response)
    (hli : r.ListIdentifiers.ResumptionToken = "")
    (hlr : r.ListRecords.ResumptionToken = "")
    (herr : r.Error.Code ≠ "") :
    Request.Harvest req (r :: rest) = [(req, r)]
    ∧ Response.ResumptionToken (some r) = (false, "")
    ∧ ∀ e : OAIError,
        Request.Harvest req ({ r with Error := e } :: rest)
          = [(req, { r with Error := e })] := by
  have htok : Response.ResumptionToken (some r) = (false, "") := by
    simp [Response.ResumptionToken, hli, hlr]
  refine ⟨?_, htok, ?_⟩
  · exact Harvest_cons_neg _ _ _ (by rw [htok])
  · intro e
    have htok' : Response.ResumptionToken (some { r with Error := e })
        = (false, "") := by
      simp [Response.ResumptionToken, hli, hlr]
    exact Harvest_cons_neg _ _ _ (by rw [htok'])

/-- C7 witness: the theorem applied to a concrete error-envelope
response. -/
theorem harvest_error_envelope_graceful_witness :
    Request.Harvest sampleRequest [errorResponse]
      = [(sampleRequest, errorResponse)]
    ∧ Response.ResumptionToken (some errorResponse) = (false, "")
    ∧ ∀ e : OAIError,
        Request.Harvest sampleRequest [{ errorResponse with Error := e }]
          = [(sampleRequest, { errorResponse with Error := e })] :=
  harvest_error_envelope_graceful sampleRequest errorResponse []
    (by decide) (by decide) (by decide)

end Oai

namespace Oai

/-- C1: on a script where every page but the last carries a non-empty
continuation token and the last carries none, the harvest performs
exactly one call per page, the batch callback is invoked exactly once per
page with the pages in order, and the resumption token supplied on call
`k + 1` equals the token emitted by call `k`'s response.  The one-page
special case is the instance where the script's single response carries
no token: one call, one callback invocation. -/
theorem harvest_calls_per_page_and_token_threading (req : Request)
    (script : List Response)
    (hne : script ≠ [])
    (hmid : ∀ r ∈ script.dropLast, (Response.ResumptionToken (some r)).1 = true)
    (hlast : ∀ rl, script.getLast? = some rl →
      (Response.ResumptionToken (some rl)).1 = false) :
    (Request.Harvest req script).length = script.length
    ∧ (Request.Harvest req script).map Prod.snd = script
    ∧ ∀ (k : Nat) (c c' : Request × Response),
        (Request.Harvest req script)[k]? = some c →
        (Request.Harvest req script)[k + 1]? = some c' →
        c'.1.ResumptionToken = (Response.ResumptionToken (some c.2)).2 := by
  have hmap := harvest_map_snd script req hne hmid hlast
  refine ⟨?_, hmap, ?_⟩
  · have hl := congrArg List.length hmap
    simpa using hl
  · intro k c c' hc hc'
    have hstep := harvest_step script req k c c' hc hc'
    rw [hstep.1]
    rfl

/-- C1 witness: the theorem applied to the concrete two-page script. -/
theorem harvest_calls_per_page_witness :
    (Request.Harvest sampleRequest sampleScript).length = sampleScript.length
    ∧ (Request.Harvest sampleRequest sampleScript).map Prod.snd = sampleScript
    ∧ ∀ (k : Nat) (c c' : Request × Response),
        (Request.Harvest sampleRequest sampleScript)[k]? = some c →
        (Request.Harvest sampleRequest sampleScript)[k + 1]? = some c' →
        c'.1.ResumptionToken = (Response.ResumptionToken (some c.2)).2 :=
  harvest_calls_per_page_and_token_threading sampleRequest sampleScript
    (by decide) (by decide)
    (by
      intro rl hrl
      rw [show sampleScript.getLast? = some samplePage2 from rfl] at hrl
      injection hrl with hrl
      rw [← hrl]
      decide)

/-- C2: whenever a harvest re-issues a request after detecting a token,
the continuation request has empty `Set`, `MetadataPrefix` and `From`
fields, carries the detected token (which is non-empty), keeps the
caller's verb, identifier and until bound, and its query list consists of
exactly `verb` and `resumptionToken` plus the `identifier`/`until` pairs
the caller originally set; its serialized target is the base URL, `?`,
and that query list joined by `&`. -/
theorem continuation_request_query (req : Request) (script : List Response)
    (k : Nat) (c c' : Request × Response)
    (hv : req.Verb ≠ "")
    (hc : (Request.Harvest req script)[k]? = some c)
    (hc' : (Request.Harvest req script)[k + 1]? = some c') :
    c'.1.Set = "" ∧ c'.1.MetadataPrefix = "" ∧ c'.1.From = ""
    ∧ c'.1.ResumptionToken = (Response.ResumptionToken (some c.2)).2
    ∧ (Response.ResumptionToken (some c.2)).2 ≠ ""
    ∧ c'.1.Verb = req.Verb ∧ c'.1.Identifier = req.Identifier
    ∧ c'.1.Until = req.Until
    ∧ Request.qs c'.1
      = ["verb=" ++ req.Verb,
         "resumptionToken=" ++ (Response.ResumptionToken (some c.2)).2]
        ++ (if req.Identifier = "" then []
            else ["identifier=" ++ req.Identifier])
        ++ (if req.Until = "" then [] else ["until=" ++ req.Until])
    ∧ Request.String c'.1
      = req.BaseUrl ++ "?" ++ String.intercalate "&" (Request.qs c'.1) := by
  have hstep := harvest_step script req k c c' hc hc'
  have hf := harvest_fields script req c' (List.getElem?_mem hc')
  have hfc := harvest_fields script req c (List.getElem?_mem hc)
  have htok : (Response.ResumptionToken (some c.2)).2 ≠ "" :=
    (resumption_has_iff (some c.2)).mp hstep.2
  obtain ⟨hs1, _⟩ := hstep
  have hqs : Request.qs c'.1
      = ["verb=" ++ req.Verb,
         "resumptionToken=" ++ (Response.ResumptionToken (some c.2)).2]
        ++ (if req.Identifier = "" then []
            else ["identifier=" ++ req.Identifier])
        ++ (if req.Until = "" then [] else ["until=" ++ req.Until]) := by
    rw [qs_eq, hs1]
    simp [continuationRequest, condParam, hv, htok, hfc.1, hfc.2.1, hfc.2.2.1]
  refine ⟨by rw [hs1]; rfl, by rw [hs1]; rfl, by rw [hs1]; rfl,
    by rw [hs1]; rfl, htok, hf.1, hf.2.1, hf.2.2.1, hqs, ?_⟩
  simp only [Request.String]
  rw [hf.2.2.2]
  simp [String.intercalate, String.intercalate.go]

/-- C2 witness: the theorem applied to the second call of the concrete
two-page harvest. -/
theorem continuation_request_query_witness :
    sampleContinuation.1.Set = "" ∧ sampleContinuation.1.MetadataPrefix = ""
    ∧ sampleContinuation.1.From = ""
    ∧ sampleContinuation.1.ResumptionToken
      = (Response.ResumptionToken (some samplePage1)).2
    ∧ (Response.ResumptionToken (some samplePage1)).2 ≠ ""
    ∧ sampleContinuation.1.Verb = sampleRequest.Verb
    ∧ sampleContinuation.1.Identifier = sampleRequest.Identifier
    ∧ sampleContinuation.1.Until = sampleRequest.Until
    ∧ Request.qs sampleContinuation.1
      = ["verb=" ++ sampleRequest.Verb,
         "resumptionToken=" ++ (Response.ResumptionToken (some samplePage1)).2]
        ++ (if sampleRequest.Identifier = "" then []
            else ["identifier=" ++ sampleRequest.Identifier])
        ++ (if sampleRequest.Until = ""
            then [] else ["until=" ++ sampleRequest.Until])
    ∧ Request.String sampleContinuation.1
      = sampleRequest.BaseUrl ++ "?"
        ++ String.intercalate "&" (Request.qs sampleContinuation.1) :=
  continuation_request_query sampleRequest sampleScript 0
    (sampleRequest, samplePage1) sampleContinuation
    (by decide) (by decide) (by decide)

/-- C9: on a script where every page but the last carries a token and the
last carries none, the per-item harvests invoke their callback exactly
once per item of each page, in the items' wire order within the page,
with all items of page `k` delivered before any item of page `k + 1`:
the invocation list is the script's item lists concatenated in page
order. -/
theorem harvest_per_item_wire_order (req : Request) (script : List Response)
    (hne : script ≠ [])
    (hmid : ∀ r ∈ script.dropLast, (Response.ResumptionToken (some r)).1 = true)
    (hlast : ∀ rl, script.getLast? = some rl →
      (Response.ResumptionToken (some rl)).1 = false) :
    Request.HarvestIdentifiers req script
      = script.flatMap (fun r => r.ListIdentifiers.Headers)
    ∧ Request.HarvestRecords req script
      = script.flatMap (fun r => r.ListRecords.Records) := by
  constructor
  · have hmap := harvest_map_snd script { req with Verb := "ListIdentifiers" }
      hne hmid hlast
    simp only [Request.HarvestIdentifiers]
    conv_rhs => rw [← hmap]
    rw [List.flatMap_map]
  · have hmap := harvest_map_snd script { req with Verb := "ListRecords" }
      hne hmid hlast
    simp only [Request.HarvestRecords]
    conv_rhs => rw [← hmap]
    rw [List.flatMap_map]

/-- C9 witness: the theorem applied to the concrete two-page script. -/
theorem harvest_per_item_wire_order_witness :
    Request.HarvestIdentifiers sampleRequest sampleScript
      = sampleScript.flatMap (fun r => r.ListIdentifiers.Headers)
    ∧ Request.HarvestRecords sampleRequest sampleScript
      = sampleScript.flatMap (fun r => r.ListRecords.Records) :=
  harvest_per_item_wire_order sampleRequest sampleScript
    (by decide) (by decide)
    (by
      intro rl hrl
      rw [show sampleScript.getLast? = some samplePage2 from rfl] at hrl
      injection hrl with hrl
      rw [← hrl]
      decide)

end Oai

namespace Oai

/-- The round-robin loop started at index `i = m % n` sends successive
items to successive channel indices modulo the channel count. -/
theorem distributeLoop_enumFrom (headers : List Header) : ∀ (n i m : Nat),
    i < n → i = m % n →
    distributeLoop n i headers
      = (headers.enumFrom m).map
          (fun p => ChanEvent.send (p.1 % n) (some p.2)) := by
  induction headers with
  | nil => intro n i m _ _; simp [distributeLoop]
  | cons hd rest ih =>
    intro n i m hi hm
    have hwrap : (if i + 1 = n then 0 else i + 1) = (m + 1) % n := by
      rw [← Nat.mod_add_mod, ← hm]
      split
      · next heq => rw [heq, Nat.mod_self]
      · next hne => exact (Nat.mod_eq_of_lt (by omega)).symm
    have hlt : (if i + 1 = n then 0 else i + 1) < n := by
      split <;> omega
    simp only [distributeLoop, List.enumFrom, List.map]
    rw [← hm]
    exact congrArg (ChanEvent.send i (some hd) :: ·) (ih n _ (m + 1) hlt hwrap)

/-- On each page the round-robin loop starts at 0, so the page's item `j`
is sent to channel `j mod n`. -/
theorem distributeLoop_zero (n : Nat) (hn : 0 < n) (headers : List Header) :
    distributeLoop n 0 headers
      = headers.enum.map (fun p => ChanEvent.send (p.1 % n) (some p.2)) :=
  distributeLoop_enumFrom headers n 0 0 hn (by simp)

/-- Every event the round-robin loop emits is a real (non-sentinel)
send. -/
theorem distributeLoop_shape (headers : List Header) : ∀ (n i : Nat)
    (e : ChanEvent), e ∈ distributeLoop n i headers →
    ∃ j hd, e = ChanEvent.send j (some hd) := by
  induction headers with
  | nil => intro n i e he; simp [distributeLoop] at he
  | cons hd rest ih =>
    intro n i e he
    simp only [distributeLoop] at he
    rcases List.mem_cons.mp he with h1 | h1
    · exact ⟨i, hd, h1⟩
    · exact ih _ _ e h1

/-- The sentinel broadcast block contains exactly one sentinel for every
channel index below the channel count. -/
theorem sentinel_block_count (n j : Nat) (hj : j < n) :
    ((List.range n).map (fun i => ChanEvent.send i none)).count
      (ChanEvent.send j none) = 1 := by
  have hinj : Function.Injective (fun i : Nat => ChanEvent.send i none) := by
    intro a b hab
    simpa using hab
  rw [List.count_map_of_injective _ _ hinj]
  exact List.count_eq_one_of_mem (List.nodup_range n) (List.mem_range.mpr hj)

/-- On a well-formed script, the fan-out event trace decomposes as the
real sends followed by exactly one sentinel broadcast block. -/
theorem harvest_channel_events_decomp (script : List Response) :
    ∀ (req : Request) (n : Nat),
    script ≠ [] →
    (∀ r ∈ script.dropLast, (Response.ResumptionToken (some r)).1 = true) →
    (∀ rl, script.getLast? = some rl →
      (Response.ResumptionToken (some rl)).1 = false) →
    ∃ pre,
      (Request.Harvest req script).flatMap (fun c => channelPageEvents n c.2)
        = pre ++ (List.range n).map (fun j => ChanEvent.send j none)
      ∧ ∀ e ∈ pre, ∃ j hd, e = ChanEvent.send j (some hd) := by
  induction script with
  | nil => intro req n hne _ _; exact absurd rfl hne
  | cons r rest ih =>
    intro req n hne hmid hlast
    cases rest with
    | nil =>
      have hr : (Response.ResumptionToken (some r)).1 = false := hlast r rfl
      rw [Harvest_cons_neg _ _ _ hr]
      refine ⟨distributeLoop n 0 r.ListIdentifiers.Headers, ?_, ?_⟩
      · simp [channelPageEvents, hr]
      · intro e he
        exact distributeLoop_shape r.ListIdentifiers.Headers n 0 e he
    | cons r2 rest2 =>
      have hr : (Response.ResumptionToken (some r)).1 = true := by
        apply hmid
        rw [List.dropLast_cons₂]
        exact List.mem_cons_self _ _
      rw [Harvest_cons_pos _ _ _ hr]
      have hmid2 : ∀ r' ∈ (r2 :: rest2).dropLast,
          (Response.ResumptionToken (some r')).1 = true := by
        intro r' hr'
        apply hmid
        rw [List.dropLast_cons₂]
        exact List.mem_cons_of_mem _ hr'
      have hlast2 : ∀ rl, (r2 :: rest2).getLast? = some rl →
          (Response.ResumptionToken (some rl)).1 = false := by
        intro rl hrl
        exact hlast rl (by rw [List.getLast?_cons_cons]; exact hrl)
      obtain ⟨pre, hdec, hshape⟩ :=
        ih (continuationRequest (req, r)) n (by simp) hmid2 hlast2
      refine ⟨distributeLoop n 0 r.ListIdentifiers.Headers ++ pre, ?_, ?_⟩
      · rw [List.flatMap_cons, hdec]
        simp [channelPageEvents, hr, List.append_assoc]
      · intro e he
        rcases List.mem_append.mp he with h1 | h1
        · exact distributeLoop_shape r.ListIdentifiers.Headers n 0 e h1
        · exact hshape e h1

end Oai

namespace Oai

/-- C3 counterexample: with 3 channels and 7 items split 4 + 3 across two
pages, the destination sequence the code produces in arrival order is
[0, 1, 2, 0, 0, 1, 2] — the round-robin counter restarts at each page
boundary — and not the cumulative sequence [0, 1, 2, 0, 1, 2, 0]
predicted by the claim's `i mod N` rule over the whole harvest. -/
theorem channel_fanout_not_cumulative :
    realSendTargets
        (Request.ChannelHarvestIdentifiers sampleRequest 3 fanScript)
      = [0, 1, 2, 0, 0, 1, 2]
    ∧ realSendTargets
        (Request.ChannelHarvestIdentifiers sampleRequest 3 fanScript)
      ≠ (List.range 7).map (fun i => i % 3) := by
  constructor
  · decide
  · decide

/-- C3 amended: in a fan-out harvest over `n ≥ 1` channels the
round-robin counter restarts at every page boundary: within each page,
item `j` (0-indexed within that page) is sent to channel `j mod n`; in
particular with 3 channels and 7 items split 4 + 3 across two pages the
destination sequence in arrival order is [0, 1, 2, 0, 0, 1, 2]. -/
theorem channel_fanout_round_robin_per_page (req : Request) (n : Nat)
    (script : List Response) (hn : 0 < n) :
    Request.ChannelHarvestIdentifiers req n script
      = (Request.Harvest { req with Verb := "ListIdentifiers" }
          script).flatMap
          (fun c =>
            c.2.ListIdentifiers.Headers.enum.map
                (fun p => ChanEvent.send (p.1 % n) (some p.2))
              ++ (if (Response.ResumptionToken (some c.2)).1 then []
                  else (List.range n).map (fun j => ChanEvent.send j none)))
    ∧ realSendTargets
        (Request.ChannelHarvestIdentifiers sampleRequest 3 fanScript)
      = [0, 1, 2, 0, 0, 1, 2] := by
  constructor
  · have hpage : ∀ resp : Response, channelPageEvents n resp
        = resp.ListIdentifiers.Headers.enum.map
              (fun p => ChanEvent.send (p.1 % n) (some p.2))
            ++ (if (Response.ResumptionToken (some resp)).1 then []
                else (List.range n).map (fun j => ChanEvent.send j none)) := by
      intro resp
      simp only [channelPageEvents]
      rw [distributeLoop_zero n hn]
      cases hb : (Response.ResumptionToken (some resp)).1 <;> simp [hb]
    simp only [Request.ChannelHarvestIdentifiers]
    simp only [hpage]
  · decide

/-- C3 amended witness: the theorem applied over 3 channels. -/
theorem channel_fanout_round_robin_witness :
    Request.ChannelHarvestIdentifiers sampleRequest 3 fanScript
      = (Request.Harvest { sampleRequest with Verb := "ListIdentifiers" }
          fanScript).flatMap
          (fun c =>
            c.2.ListIdentifiers.Headers.enum.map
                (fun p => ChanEvent.send (p.1 % 3) (some p.2))
              ++ (if (Response.ResumptionToken (some c.2)).1 then []
                  else (List.range 3).map (fun j => ChanEvent.send j none)))
    ∧ realSendTargets
        (Request.ChannelHarvestIdentifiers sampleRequest 3 fanScript)
      = [0, 1, 2, 0, 0, 1, 2] :=
  channel_fanout_round_robin_per_page sampleRequest 3 fanScript (by decide)

/-- C8: for every fan-out harvest over `n ≥ 1` channels on a well-formed
script, the event trace is the real sends followed by exactly one
terminal nil sentinel per channel: every channel below `n` receives the
sentinel exactly once, no sentinel is sent before the last real item of
the final page (in particular none on any page that carries a token), and
the driver never closes any channel. -/
theorem channel_fanout_sentinel_broadcast (req : Request) (n : Nat)
    (script : List Response) (hn : 0 < n)
    (hne : script ≠ [])
    (hmid : ∀ r ∈ script.dropLast, (Response.ResumptionToken (some r)).1 = true)
    (hlast : ∀ rl, script.getLast? = some rl →
      (Response.ResumptionToken (some rl)).1 = false) :
    (∃ pre, Request.ChannelHarvestIdentifiers req n script
        = pre ++ (List.range n).map (fun j => ChanEvent.send j none)
      ∧ ∀ j, ChanEvent.send j none ∉ pre)
    ∧ (∀ j, j < n →
        (Request.ChannelHarvestIdentifiers req n script).count
          (ChanEvent.send j none) = 1)
    ∧ (∀ j, ChanEvent.close j ∉
        Request.ChannelHarvestIdentifiers req n script) := by
  obtain ⟨pre, hdec, hshape⟩ := harvest_channel_events_decomp script
    { req with Verb := "ListIdentifiers" } n hne hmid hlast
  have hdec' : Request.ChannelHarvestIdentifiers req n script
      = pre ++ (List.range n).map (fun j => ChanEvent.send j none) := hdec
  have hnosent : ∀ j, ChanEvent.send j none ∉ pre := by
    intro j hmem
    obtain ⟨j', hd, he⟩ := hshape _ hmem
    simp at he
  have hcount : ∀ j, j < n →
      (Request.ChannelHarvestIdentifiers req n script).count
        (ChanEvent.send j none) = 1 := by
    intro j hj
    rw [hdec', List.count_append, List.count_eq_zero.mpr (hnosent j),
      sentinel_block_count n j hj]
  have hclose : ∀ j, ChanEvent.close j ∉
      Request.ChannelHarvestIdentifiers req n script := by
    intro j hmem
    rw [hdec'] at hmem
    rcases List.mem_append.mp hmem with h1 | h1
    · obtain ⟨j', hd, he⟩ := hshape _ h1
      simp at he
    · obtain ⟨a, _, he⟩ := List.mem_map.mp h1
      simp at he
  exact ⟨⟨pre, hdec', hnosent⟩, hcount, hclose⟩

/-- C8 witness: the theorem applied to the concrete fan-out script over 3
channels. -/
theorem channel_fanout_sentinel_broadcast_witness :
    (∃ pre, Request.ChannelHarvestIdentifiers sampleRequest 3 fanScript
        = pre ++ (List.range 3).map (fun j => ChanEvent.send j none)
      ∧ ∀ j, ChanEvent.send j none ∉ pre)
    ∧ (∀ j, j < 3 →
        (Request.ChannelHarvestIdentifiers sampleRequest 3 fanScript).count
          (ChanEvent.send j none) = 1)
    ∧ (∀ j, ChanEvent.close j ∉
        Request.ChannelHarvestIdentifiers sampleRequest 3 fanScript) :=
  channel_fanout_sentinel_broadcast sampleRequest 3 fanScript
    (by decide) (by decide) (by decide)
    (by
      intro rl hrl
      rw [show fanScript.getLast? = some (samplePage [sampleHeader "h4",
        sampleHeader "h5", sampleHeader "h6"] [] "") from rfl] at hrl
      injection hrl with hrl
      rw [← hrl]
      decide)

end Oai
